import Mathlib

/-
Verification development for youtube_email_scraper.py
(class GoogleEmailScraper).

The Python source is shallowly embedded as executable Lean definitions:

 * The record store (a CSV file with columns channel_url and email_id)
   is modelled as a CsvFile: a header line plus data rows, each a list
   of raw string cells.  The csv.DictReader / csv.DictWriter behaviour
   is modelled faithfully: each data row becomes a Python dict built by
   zipping the header with the row (missing cells become the Python
   value None, modelled as Option.none; a later duplicate header column
   overwrites an earlier one, modelled by a last-wins lookup), a lookup
   of a key that is not in the dict raises KeyError, and DictWriter
   raises ValueError when a row dict carries keys outside the declared
   fieldnames (including the restkey entry produced by a row that is
   longer than the header).
 * Python exceptions are modelled with Except / error components.
 * The email regular expression of extract_email_content,
   r-backslash-b[A-Za-z0-9._%+-]+ at [A-Za-z0-9.-]+ dot [A-Z|a-z]{2,}
   backslash-b, is implemented as an executable backtracking matcher
   (greedy quantifiers, leftmost non-overlapping scan, ASCII word
   boundaries) and list(set(...)) as List.toFinset.
 * The browser, the 2captcha solver and Google login are external
   collaborators; they are modelled as environments of response
   functions (PageEnv, AuthEnv), and the observable actions of the
   batch loop in GoogleEmailScraper.run are recorded as an event trace.
-/

namespace Scraper

/-- Python exceptions that the embedded code can raise.  KeyError comes
from indexing a DictReader row with a column that is not in the header,
ValueError from DictWriter.writerows on a dict with unexpected keys, and
authenticationError stands for the (uncaught, batch-fatal) selenium
exception raised when a login input field is not interactable. -/
inductive PyError where
  | keyError
  | valueError
  | authenticationError
deriving DecidableEq

/-- The backing CSV file: a header line and the data rows, each row a
list of raw string cells. -/
structure CsvFile where
  header : List String
  rows : List (List String)
deriving DecidableEq

/-- One parsed record, as produced by csv.DictReader: the two column
values, where Option.none models the Python value None that DictReader
substitutes for a cell missing from a short row (restval). -/
structure RawRecord where
  channel_url : Option String
  email_id : Option String
deriving DecidableEq

/-- dict(zip(header, row)) cell pairing: every header column gets an
entry; columns beyond the end of the row get the reader restval None. -/
def dictZip : List String → List String → List (String × Option String)
  | [], _ => []
  | h :: hs, [] => (h, none) :: dictZip hs []
  | h :: hs, v :: vs => (h, some v) :: dictZip hs vs

/-- Python dict lookup over the zipped pairs.  Building a dict by
inserting pairs in order makes a later duplicate key overwrite an
earlier one, so the lookup is last-wins; a missing key is a KeyError at
the call sites, signalled here by Option.none. -/
def dictGet : List (String × Option String) → String → Option (Option String)
  | [], _ => none
  | p :: d, k =>
    match dictGet d k with
    | some w => some w
    | none => if p.1 = k then some p.2 else none

/-- Python `k in dict` over the zipped pairs. -/
def dictHasKey (d : List (String × Option String)) (k : String) : Bool :=
  d.any (fun p => p.1 == k)

/-- Python dict assignment d[k] = v: overwrite the key when present
(all pair occurrences, so that the last-wins lookup returns v), append
it otherwise. -/
def dictSet (d : List (String × Option String)) (k : String) (v : Option String) :
    List (String × Option String) :=
  if dictHasKey d k then d.map (fun p => if p.1 == k then (k, v) else p)
  else d ++ [(k, v)]

/-- Sequential effectful loop over a list, stopping at the first raised
exception: the shape of every `for row in reader` loop in the source. -/
def mapExcept (g : α → Except PyError β) : List α → Except PyError (List β)
  | [] => Except.ok []
  | x :: xs =>
    match g x with
    | Except.error e => Except.error e
    | Except.ok y =>
      match mapExcept g xs with
      | Except.error e => Except.error e
      | Except.ok ys => Except.ok (y :: ys)

/-- GoogleEmailScraper.load_urls_from_csv: for each DictReader row,
read row at channel_url and row at email_id (KeyError when the column
is absent from the header) and collect the records in file order. -/
def load_urls_from_csv (f : CsvFile) : Except PyError (List RawRecord) :=
  mapExcept (fun r =>
    match dictGet (dictZip f.header r) "channel_url" with
    | none => Except.error PyError.keyError
    | some cu =>
      match dictGet (dictZip f.header r) "email_id" with
      | none => Except.error PyError.keyError
      | some ei => Except.ok ⟨cu, ei⟩) f.rows

/-- The record a DictReader row parses to, with a missing column read
as None (only reachable when the lookup succeeds). -/
def rowToRecord (header row : List String) : RawRecord :=
  ⟨(dictGet (dictZip header row) "channel_url").getD none,
   (dictGet (dictZip header row) "email_id").getD none⟩

/-- One iteration of the reading loop of save_emails_to_csv: build the
DictReader dict of the row, read its channel_url entry (KeyError when
that column is absent from the header), set email_id to the new value
when the row matches, and keep the row.  The original row length is
carried along because DictWriter later has to see the restkey entry of
a row longer than the header. -/
def readRowDict (header : List String) (url : Option String) (email : String)
    (r : List String) : Except PyError (List (String × Option String) × Nat) :=
  let d := dictZip header r
  match dictGet d "channel_url" with
  | none => Except.error PyError.keyError
  | some cu =>
    Except.ok (if cu = url then dictSet d "email_id" (some email) else d, r.length)

/-- One iteration of DictWriter.writerows with fieldnames
[channel_url, email_id]: ValueError when the row dict carries the
restkey entry (the row was longer than the header of length headerLen)
or any key outside the fieldnames; otherwise emit the two cells,
rendering a missing key (restval) or a None value as the empty string. -/
def writeRowDict (headerLen : Nat) (p : List (String × Option String) × Nat) :
    Except PyError (List String) :=
  if headerLen < p.2 then Except.error PyError.valueError
  else if p.1.any (fun q => q.1 != "channel_url" && q.1 != "email_id") then
    Except.error PyError.valueError
  else Except.ok [((dictGet p.1 "channel_url").getD none).getD "",
                  ((dictGet p.1 "email_id").getD none).getD ""]

/-- GoogleEmailScraper.save_emails_to_csv: the reading loop over the
DictReader rows, then the full-file rewrite with writeheader followed
by writerows.  The result file has the fixed two-column header. -/
def save_emails_to_csv (f : CsvFile) (url : Option String) (email : String) :
    Except PyError CsvFile :=
  match mapExcept (readRowDict f.header url email) f.rows with
  | Except.error e => Except.error e
  | Except.ok updated =>
    match mapExcept (writeRowDict f.header.length) updated with
    | Except.error e => Except.error e
    | Except.ok outRows => Except.ok ⟨["channel_url", "email_id"], outRows⟩

/-- A store file of the documented schema: the exact two-column header
and rows of exactly two cells. -/
def wellFormedStore (f : CsvFile) : Prop :=
  f.header = ["channel_url", "email_id"] ∧ ∀ r ∈ f.rows, r.length = 2

instance (f : CsvFile) : Decidable (wellFormedStore f) := by
  unfold wellFormedStore
  exact instDecidableAnd

/-! The email regular expression of extract_email_content.

The Python pattern is (with BSL standing for a backslash)
BSL b [A-Za-z0-9._%+-]+ AT [A-Za-z0-9.-]+ BSL . [A-Z|a-z]{2,} BSL b
and re.findall scans left to right, returning the non-overlapping
matches produced by the leftmost-match backtracking engine.  The
matcher below reproduces that engine for this fixed pattern:

 * the local-part class excludes the at sign, so its greedy plus never
   needs to backtrack (a shorter take would leave a local-class
   character where the at sign is required);
 * the domain class contains the dot, so the literal dot of the
   pattern always splits the maximal domain run; greediness means the
   rightmost dot is tried first and earlier dots on failure;
 * the top-level class is letters plus the pipe character (the source
   pattern spells [A-Z|a-z], making the pipe a literal class member);
   its {2,} repetition is greedy and backtracks down to two characters
   looking for a closing word boundary.

Word characters are ASCII letters, digits and the underscore; the
inputs of interest are ASCII, where the Python Unicode BSL b agrees. -/

/-- Python word character (ASCII fragment of BSL w). -/
def isWordChar (c : Char) : Bool := c.isAlpha || c.isDigit || c = '_'

/-- Character class [A-Za-z0-9._%+-] of the local part. -/
def localClass (c : Char) : Bool :=
  c.isAlpha || c.isDigit || c = '.' || c = '_' || c = '%' || c = '+' || c = '-'

/-- Character class [A-Za-z0-9.-] of the domain part. -/
def domainClass (c : Char) : Bool := c.isAlpha || c.isDigit || c = '.' || c = '-'

/-- Character class [A-Z|a-z] of the final repetition (the pipe is a
literal member of the class as written in the source). -/
def tldClass (c : Char) : Bool := c.isAlpha || c = '|'

/-- Word-character test of an optional character; the ends of the
input count as non-word positions. -/
def wordOpt : Option Char → Bool
  | none => false
  | some c => isWordChar c

/-- A word boundary sits between two positions of different word-ness. -/
def boundaryOk (left right : Option Char) : Bool := wordOpt left != wordOpt right

/-- Maximal munch of a character class: the greedy take and the rest. -/
def munch (p : Char → Bool) : List Char → List Char × List Char
  | [] => ([], [])
  | c :: cs =>
    if p c then
      let r := munch p cs
      (c :: r.1, r.2)
    else ([], c :: cs)

/-- Greedy [A-Z|a-z]{2,} followed by a word boundary: run is the
maximal class run and rest what follows it; k counts down from the
full run length to 2 looking for the longest take whose end position
is a word boundary.  Returns the take and the remaining input. -/
def tldTry : Nat → List Char → List Char → Option (List Char × List Char)
  | 0, _, _ => none
  | 1, _, _ => none
  | Nat.succ (Nat.succ k), run, rest =>
    let kk := k + 2
    if kk ≤ run.length then
      let taken := run.take kk
      let remaining := run.drop kk ++ rest
      if boundaryOk (some (taken.getLastD ' ')) remaining.head? then
        some (taken, remaining)
      else tldTry (k + 1) run rest
    else tldTry (k + 1) run rest

/-- The literal dot and the final repetition inside the maximal domain
run: run is the maximal [A-Za-z0-9.-] run after the at sign and rest
what follows it.  The greedy domain plus tries the rightmost dot of the
run first (j counts down); at a dot, the final repetition starts right
after it and may extend past the run into rest (the pipe character is
in the final class but not in the domain class). -/
def domTry : Nat → List Char → List Char → Option (List Char × List Char)
  | 0, _, _ => none
  | Nat.succ j, run, rest =>
    let jj := j + 1
    if hj : jj < run.length then
      if run.get ⟨jj, hj⟩ = '.' then
        let afterDot := run.drop (jj + 1) ++ rest
        let m := munch tldClass afterDot
        match tldTry m.1.length m.1 m.2 with
        | some (t, r) => some (run.take jj ++ '.' :: t, r)
        | none => domTry j run rest
      else domTry j run rest
    else domTry j run rest

/-- One attempt to match the whole pattern at the current position,
with prev the character just before the position (for the leading word
boundary).  Returns the matched characters and the remaining input. -/
def tryMatchAt (prev : Option Char) (s : List Char) : Option (List Char × List Char) :=
  if boundaryOk prev s.head? then
    let l := munch localClass s
    match l.1, l.2 with
    | [], _ => none
    | _ :: _, '@' :: afterAt =>
      let d := munch domainClass afterAt
      match domTry d.1.length d.1 d.2 with
      | some (dom, rem) => some (l.1 ++ '@' :: dom, rem)
      | none => none
    | _ :: _, _ => none
  else none

/-- re.findall scan: try the pattern at every position left to right,
emit each match and continue right after it (non-overlapping); fuel
bounds the recursion (every step consumes at least one character). -/
def scanEmails : Nat → Option Char → List Char → List String
  | 0, _, _ => []
  | _, _, [] => []
  | Nat.succ fuel, prev, c :: rest =>
    match tryMatchAt prev (c :: rest) with
    | some (m, rem) => String.mk m :: scanEmails fuel (some (m.getLastD ' ')) rem
    | none => scanEmails fuel (some c) rest

/-- re.findall of the email pattern over a page source. -/
def findallEmails (s : String) : List String :=
  scanEmails (s.length + 1) none s.data

/-- GoogleEmailScraper.extract_email_content: the regex matches over
the page source, deduplicated by list(set(...)), whose observable
content is the finite set of distinct matches. -/
def extract_email_content (pageSource : String) : Finset String :=
  (findallEmails pageSource).toFinset

/-! The batch run: GoogleEmailScraper.login_to_google and
GoogleEmailScraper.run.  The browser and the solver are external
collaborators, modelled as environments of response functions; the
observable actions of the loop are recorded as an event trace. -/

/-- Python substring test (the `in` operator on str): prefix check at
every suffix position. -/
def isPrefixL : List Char → List Char → Bool
  | [], _ => true
  | _ :: _, [] => false
  | a :: as, b :: bs => a = b && isPrefixL as bs

/-- Needle occurs somewhere in the haystack. -/
def containsSub (hay needle : List Char) : Bool :=
  if isPrefixL needle hay then true
  else
    match hay with
    | [] => false
    | _ :: t => containsSub t needle

/-- Python `needle in hay` on strings. -/
def strContains (hay needle : String) : Bool := containsSub hay.data needle.data

/-- External state seen by login_to_google: the page address after
opening accounts.google.com, and whether the identifier and password
input fields are interactable (sb.type raises when its target never
becomes interactable within the selenium wait). -/
structure AuthEnv where
  currentUrl : String
  idFieldOk : Bool
  pwFieldOk : Bool

/-- Browser actions login_to_google can perform after the initial
navigation. -/
inductive LoginEvent where
  | opened
  | typedIdentifier
  | clickedIdentifierNext
  | typedPassword
  | clickedPasswordNext
deriving DecidableEq

/-- GoogleEmailScraper.login_to_google: open the accounts page; if the
resulting address contains the substring myaccount, return at once
having performed no credential step; otherwise type the identifier,
click next, type the password, click next.  A non-interactable input
field makes sb.type raise before any further event; the uncaught
exception is the batch-fatal authentication failure. -/
def login_to_google (a : AuthEnv) : List LoginEvent × Option PyError :=
  if strContains a.currentUrl "myaccount" then ([LoginEvent.opened], none)
  else if a.idFieldOk = false then
    ([LoginEvent.opened], some PyError.authenticationError)
  else if a.pwFieldOk = false then
    ([LoginEvent.opened, LoginEvent.typedIdentifier, LoginEvent.clickedIdentifierNext],
     some PyError.authenticationError)
  else
    ([LoginEvent.opened, LoginEvent.typedIdentifier, LoginEvent.clickedIdentifierNext,
      LoginEvent.typedPassword, LoginEvent.clickedPasswordNext], none)

/-- External responses seen by the per-record loop of run, keyed by the
channel url of the record being processed: whether the reveal-contact
trigger (view-email-button-container) is visible, whether the 2captcha
call succeeds, and what sb.get_text on the email result element
returns (none models the exception caught by run, interpreted there as
a rate limit and answered with quit()). -/
structure PageEnv where
  trigger : Option String → Bool
  solver : Option String → Bool
  emailText : Option String → Option String

/-- Observable per-record actions of the loop in run. -/
inductive Ev where
  | navigated (url : Option String)
  | captchaSolved (url : Option String)
  | saved (url : Option String) (email : String)
  | skipped (url : Option String)
deriving DecidableEq

/-- The url an event is about. -/
def evUrl : Ev → Option String
  | Ev.navigated u => u
  | Ev.captchaSolved u => u
  | Ev.saved u _ => u
  | Ev.skipped u => u

/-- How the loop of run ended. -/
inductive Halt where
  | completed
  | unavailableReturn
  | solverCrash
  | limitQuit
deriving DecidableEq

/-- Python falsiness of a DictReader cell value (the `if not email_id`
test): None and the empty string are falsy, every other string truthy. -/
def isFalsy (v : Option String) : Bool := v.getD "" == ""

/-- The effect of save_emails_to_csv on the record content of a
well-formed store: every row whose channel_url equals the given url
gets the new email_id, every other row is untouched. -/
def updateEmail (rows : List RawRecord) (url : Option String) (email : String) :
    List RawRecord :=
  rows.map (fun r =>
    if r.channel_url = url then { r with email_id := some email } else r)

/-- The per-record loop of GoogleEmailScraper.run over the list loaded
at startup, threading the record content of the store file.  For a
pending record (falsy email_id): navigate; if the reveal trigger is
not visible, solve_captcha returns False and run returns, halting the
whole batch; if the 2captcha call fails, its exception propagates; if
the email element cannot be read, run calls quit(); otherwise the
store file is rewritten with the extracted value and the loop
continues.  A record with a truthy email_id is only logged as skipped. -/
def runLoop (env : PageEnv) : List RawRecord → List RawRecord →
    List Ev × List RawRecord × Halt
  | [], store => ([], store, Halt.completed)
  | u :: rest, store =>
    if isFalsy u.email_id then
      if env.trigger u.channel_url = false then
        ([Ev.navigated u.channel_url], store, Halt.unavailableReturn)
      else if env.solver u.channel_url = false then
        ([Ev.navigated u.channel_url], store, Halt.solverCrash)
      else
        match env.emailText u.channel_url with
        | none =>
          ([Ev.navigated u.channel_url, Ev.captchaSolved u.channel_url], store,
           Halt.limitQuit)
        | some em =>
          let r := runLoop env rest (updateEmail store u.channel_url em)
          (Ev.navigated u.channel_url :: Ev.captchaSolved u.channel_url ::
             Ev.saved u.channel_url em :: r.1, r.2)
    else
      let r := runLoop env rest store
      (Ev.skipped u.channel_url :: r.1, r.2)

/-- The whole external environment of one run. -/
structure Env where
  auth : AuthEnv
  page : PageEnv

/-- GoogleEmailScraper.run: log in once, then iterate the records.  A
login failure propagates before any record is touched (the halt
component none); otherwise the loop runs. -/
def run (env : Env) (urls store : List RawRecord) :
    List LoginEvent × List Ev × List RawRecord × Option Halt :=
  match login_to_google env.auth with
  | (levs, some _) => (levs, [], store, none)
  | (levs, none) =>
    let r := runLoop env.page urls store
    (levs, r.1, r.2.1, some r.2.2)

/-! Lemmas about the record store. -/

lemma dictZip_cons (h : String) (hs : List String) (row : List String) :
    dictZip (h :: hs) row = (h, row.head?) :: dictZip hs row.tail := by
  cases row <;> rfl

lemma dictGet_zip_of_not_mem (k : String) (header row : List String)
    (hk : k ∉ header) : dictGet (dictZip header row) k = none := by
  induction header generalizing row with
  | nil => rfl
  | cons h hs ih =>
    rw [dictZip_cons]
    have hne : h ≠ k := fun he => hk (he ▸ List.mem_cons_self h hs)
    have ht : dictGet (dictZip hs row.tail) k = none :=
      ih row.tail (fun hm => hk (List.mem_cons_of_mem _ hm))
    simp [dictGet, ht, hne]

lemma dictGet_zip_isSome_of_mem (k : String) (header row : List String)
    (hk : k ∈ header) : (dictGet (dictZip header row) k).isSome := by
  induction header generalizing row with
  | nil => cases hk
  | cons h hs ih =>
    rw [dictZip_cons]
    cases h1 : dictGet (dictZip hs row.tail) k with
    | some w => simp [dictGet, h1]
    | none =>
      have hk2 : k = h := by
        rcases List.mem_cons.mp hk with h2 | h2
        · exact h2
        · have h3 := ih row.tail h2
          rw [h1] at h3
          cases h3
      subst hk2
      simp [dictGet, h1]

lemma mapExcept_ok (g : α → Except PyError β) (gg : α → β) (l : List α)
    (h : ∀ x ∈ l, g x = Except.ok (gg x)) :
    mapExcept g l = Except.ok (l.map gg) := by
  induction l with
  | nil => rfl
  | cons x xs ih =>
    have hx := h x (List.mem_cons_self x xs)
    have hxs := ih (fun y hy => h y (List.mem_cons_of_mem _ hy))
    simp [mapExcept, hx, hxs]

lemma load_error_of_missing_column (f : CsvFile)
    (hmiss : "channel_url" ∉ f.header ∨ "email_id" ∉ f.header)
    (hrows : f.rows ≠ []) :
    load_urls_from_csv f = Except.error PyError.keyError := by
  obtain ⟨r, rs, hr⟩ : ∃ r rs, f.rows = r :: rs := by
    cases h : f.rows with
    | nil => exact absurd h hrows
    | cons a l => exact ⟨a, l, rfl⟩
  unfold load_urls_from_csv
  rw [hr]
  cases hmiss with
  | inl h =>
    have h0 := dictGet_zip_of_not_mem "channel_url" f.header r h
    simp [mapExcept, h0]
  | inr h =>
    have h0 := dictGet_zip_of_not_mem "email_id" f.header r h
    cases h1 : dictGet (dictZip f.header r) "channel_url" with
    | none => simp [mapExcept, h1]
    | some cu => simp [mapExcept, h1, h0]

lemma load_ok_of_columns (f : CsvFile)
    (h1 : "channel_url" ∈ f.header) (h2 : "email_id" ∈ f.header) :
    load_urls_from_csv f = Except.ok (f.rows.map (rowToRecord f.header)) := by
  unfold load_urls_from_csv
  apply mapExcept_ok
  intro r hr
  have s1 := dictGet_zip_isSome_of_mem "channel_url" f.header r h1
  have s2 := dictGet_zip_isSome_of_mem "email_id" f.header r h2
  cases hc : dictGet (dictZip f.header r) "channel_url" with
  | none => rw [hc] at s1; cases s1
  | some cu =>
    cases he : dictGet (dictZip f.header r) "email_id" with
    | none => rw [he] at s2; cases s2
    | some ei => simp [hc, he, rowToRecord]

lemma readRowDict_two (a b : String) (url : Option String) (email : String) :
    readRowDict ["channel_url", "email_id"] url email [a, b] =
      Except.ok ((if some a = url
        then [("channel_url", some a), ("email_id", some email)]
        else [("channel_url", some a), ("email_id", some b)]), 2) := by
  by_cases h : some a = url <;>
    simp [readRowDict, dictZip, dictGet, dictSet, dictHasKey, h]

lemma writeRowDict_two (x y : Option String) :
    writeRowDict 2 ([("channel_url", x), ("email_id", y)], 2) =
      Except.ok [x.getD "", y.getD ""] := by
  simp [writeRowDict, dictGet]

/-- On a well-formed store the rewrite succeeds and its row content is
the original rows with the new email value written into exactly the
rows whose first cell equals the url. -/
lemma save_ok_of_wellFormed (f : CsvFile) (url : Option String) (email : String)
    (hW : wellFormedStore f) :
    save_emails_to_csv f url email = Except.ok ⟨["channel_url", "email_id"],
      f.rows.map (fun r =>
        if some (r.getD 0 "") = url then [r.getD 0 "", email] else r)⟩ := by
  obtain ⟨hh, hlen⟩ := hW
  unfold save_emails_to_csv
  rw [hh]
  have h1 : mapExcept (readRowDict ["channel_url", "email_id"] url email) f.rows
      = Except.ok (f.rows.map (fun r => ((if some (r.getD 0 "") = url
          then [("channel_url", some (r.getD 0 "")), ("email_id", some email)]
          else [("channel_url", some (r.getD 0 "")), ("email_id", some (r.getD 1 ""))]),
          2))) := by
    apply mapExcept_ok
    intro r hrm
    obtain ⟨a, b, rfl⟩ := List.length_eq_two.mp (hlen r hrm)
    simpa using readRowDict_two a b url email
  rw [h1]
  have h3 : mapExcept (writeRowDict (["channel_url", "email_id"].length))
      (f.rows.map (fun r => ((if some (r.getD 0 "") = url
          then [("channel_url", some (r.getD 0 "")), ("email_id", some email)]
          else [("channel_url", some (r.getD 0 "")), ("email_id", some (r.getD 1 ""))]),
          2)))
      = Except.ok ((f.rows.map (fun r => ((if some (r.getD 0 "") = url
          then [("channel_url", some (r.getD 0 "")), ("email_id", some email)]
          else [("channel_url", some (r.getD 0 "")), ("email_id", some (r.getD 1 ""))]),
          2))).map (fun p => [((dictGet p.1 "channel_url").getD none).getD "",
                              ((dictGet p.1 "email_id").getD none).getD ""])) := by
    apply mapExcept_ok
    intro p hp
    obtain ⟨r, hrm, rfl⟩ := List.mem_map.mp hp
    by_cases h : some (r.getD 0 "") = url
    · simp only [if_pos h]
      rfl
    · simp only [if_neg h]
      rfl
  have h4 : (f.rows.map (fun r => ((if some (r.getD 0 "") = url
          then [("channel_url", some (r.getD 0 "")), ("email_id", some email)]
          else [("channel_url", some (r.getD 0 "")), ("email_id", some (r.getD 1 ""))]),
          2))).map (fun p => [((dictGet p.1 "channel_url").getD none).getD "",
                              ((dictGet p.1 "email_id").getD none).getD ""])
      = f.rows.map (fun r =>
          if some (r.getD 0 "") = url then [r.getD 0 "", email] else r) := by
    rw [List.map_map]
    apply List.map_congr_left
    intro r hrm
    obtain ⟨a, b, rfl⟩ := List.length_eq_two.mp (hlen r hrm)
    by_cases h : some ([a, b].getD 0 "") = url
    · simp only [Function.comp, if_pos h]
      rfl
    · simp only [Function.comp, if_neg h]
      rfl
  rw [h4] at h3
  dsimp only
  rw [h3]

/-- A well-formed store always loads, each row to the record of its two
cells. -/
lemma load_ok_of_wellFormed (f : CsvFile) (hW : wellFormedStore f) :
    load_urls_from_csv f = Except.ok (f.rows.map (fun r =>
      (⟨some (r.getD 0 ""), some (r.getD 1 "")⟩ : RawRecord))) := by
  obtain ⟨hh, hlen⟩ := hW
  rw [load_ok_of_columns f (by rw [hh]; simp) (by rw [hh]; simp)]
  congr 1
  apply List.map_congr_left
  intro r hrm
  obtain ⟨a, b, rfl⟩ := List.length_eq_two.mp (hlen r hrm)
  rw [hh]
  rfl

/-! Lemmas about the batch loop. -/

lemma updateEmail_length (rows : List RawRecord) (url : Option String) (email : String) :
    (updateEmail rows url email).length = rows.length := by
  simp [updateEmail]

lemma updateEmail_getElem (s : List RawRecord) (u : Option String) (e : String)
    (i : Nat) (h1 : i < s.length) (h2 : i < (updateEmail s u e).length) :
    (updateEmail s u e)[i] =
      if s[i].channel_url = u then ⟨s[i].channel_url, some e⟩ else s[i] := by
  simp only [updateEmail, List.getElem_map]

/-- Iterating an appended list: if the front finishes, the loop carries
on with the store the front produced; otherwise the back is never
reached and contributes nothing. -/
lemma runLoop_append (env : PageEnv) (xs ys : List RawRecord) :
    ∀ store, runLoop env (xs ++ ys) store =
      if (runLoop env xs store).2.2 = Halt.completed then
        ((runLoop env xs store).1 ++ (runLoop env ys (runLoop env xs store).2.1).1,
         (runLoop env ys (runLoop env xs store).2.1).2)
      else runLoop env xs store := by
  induction xs with
  | nil => intro store; simp [runLoop]
  | cons u rest ih =>
    intro store
    by_cases hp : isFalsy u.email_id = true
    · by_cases ht : env.trigger u.channel_url = false
      · simp [runLoop, hp, ht]
      · by_cases hs : env.solver u.channel_url = false
        · simp [runLoop, hp, ht, hs]
        · cases he : env.emailText u.channel_url with
          | none => simp [runLoop, hp, ht, hs, he]
          | some em =>
            simp [runLoop, hp, ht, hs, he]
            rw [ih]
            split
            · simp
            · simp
    · simp [runLoop, hp]
      rw [ih]
      split
      · simp
      · simp

/-- Every event of the loop is about a member of the processed list,
and any event other than a skip is about a record that was pending. -/
lemma runLoop_events_mem (env : PageEnv) (urls : List RawRecord) :
    ∀ store ev, ev ∈ (runLoop env urls store).1 → ∃ w, w ∈ urls ∧
      evUrl ev = w.channel_url ∧
      (isFalsy w.email_id = true ∨ ev = Ev.skipped w.channel_url) := by
  induction urls with
  | nil => intro store ev h; simp [runLoop] at h
  | cons u rest ih =>
    intro store ev hev
    by_cases hp : isFalsy u.email_id = true
    · by_cases ht : env.trigger u.channel_url = false
      · simp only [runLoop, hp, if_true, ht, if_pos ht] at hev
        simp only [List.mem_singleton] at hev
        exact ⟨u, List.mem_cons_self u rest, by rw [hev]; rfl, Or.inl hp⟩
      · by_cases hs : env.solver u.channel_url = false
        · simp only [runLoop, hp, if_true, if_neg ht, hs, if_pos hs] at hev
          simp only [List.mem_singleton] at hev
          exact ⟨u, List.mem_cons_self u rest, by rw [hev]; rfl, Or.inl hp⟩
        · cases he : env.emailText u.channel_url with
          | none =>
            simp only [runLoop, hp, if_true, if_neg ht, if_neg hs, he] at hev
            rcases List.mem_cons.mp hev with h | h
            · exact ⟨u, List.mem_cons_self u rest, by rw [h]; rfl, Or.inl hp⟩
            · simp only [List.mem_singleton] at h
              exact ⟨u, List.mem_cons_self u rest, by rw [h]; rfl, Or.inl hp⟩
          | some em =>
            simp only [runLoop, hp, if_true, if_neg ht, if_neg hs, he] at hev
            rcases List.mem_cons.mp hev with h | h
            · exact ⟨u, List.mem_cons_self u rest, by rw [h]; rfl, Or.inl hp⟩
            · rcases List.mem_cons.mp h with h2 | h2
              · exact ⟨u, List.mem_cons_self u rest, by rw [h2]; rfl, Or.inl hp⟩
              · rcases List.mem_cons.mp h2 with h3 | h3
                · exact ⟨u, List.mem_cons_self u rest, by rw [h3]; rfl, Or.inl hp⟩
                · obtain ⟨w, hw, he2, he3⟩ := ih _ ev h3
                  exact ⟨w, List.mem_cons_of_mem _ hw, he2, he3⟩
    · simp only [runLoop, hp, if_false, Bool.false_eq_true] at hev
      rcases List.mem_cons.mp hev with h | h
      · exact ⟨u, List.mem_cons_self u rest, by rw [h]; rfl,
          Or.inr (by rw [h])⟩
      · obtain ⟨w, hw, he2, he3⟩ := ih _ ev h
        exact ⟨w, List.mem_cons_of_mem _ hw, he2, he3⟩

lemma runLoop_store_length (env : PageEnv) (urls : List RawRecord) :
    ∀ store, ((runLoop env urls store).2.1).length = store.length := by
  induction urls with
  | nil => intro store; simp [runLoop]
  | cons u rest ih =>
    intro store
    by_cases hp : isFalsy u.email_id = true
    · by_cases ht : env.trigger u.channel_url = false
      · simp [runLoop, hp, ht]
      · by_cases hs : env.solver u.channel_url = false
        · simp [runLoop, hp, ht, hs]
        · cases he : env.emailText u.channel_url with
          | none => simp [runLoop, hp, ht, hs, he]
          | some em =>
            simp only [runLoop, hp, if_true, if_neg ht, if_neg hs, he]
            rw [ih (updateEmail store u.channel_url em), updateEmail_length]
    · simp only [runLoop, hp, if_false, Bool.false_eq_true]
      exact ih store

/-- Records of the store whose url is touched by none of the processed
records keep their entry, positionally. -/
lemma runLoop_store_frame (env : PageEnv) (urls : List RawRecord) :
    ∀ store (x : Option String), (∀ w ∈ urls, w.channel_url ≠ x) →
      ∀ i (h1 : i < store.length) (h2 : i < ((runLoop env urls store).2.1).length),
        store[i].channel_url = x → (runLoop env urls store).2.1[i] = store[i] := by
  induction urls with
  | nil =>
    intro store x hx i h1 h2 hi
    rfl
  | cons u rest ih =>
    intro store x hx i h1 h2 hi
    by_cases hp : isFalsy u.email_id = true
    · by_cases ht : env.trigger u.channel_url = false
      · simp only [runLoop, hp, if_true, ht, if_pos ht] at h2 ⊢
      · by_cases hs : env.solver u.channel_url = false
        · simp only [runLoop, hp, if_true, if_neg ht, hs, if_pos hs] at h2 ⊢
        · cases he : env.emailText u.channel_url with
          | none => simp only [runLoop, hp, if_true, if_neg ht, if_neg hs, he] at h2 ⊢
          | some em =>
            simp only [runLoop, hp, if_true, if_neg ht, if_neg hs, he] at h2 ⊢
            have h1b : i < (updateEmail store u.channel_url em).length := by
              rw [updateEmail_length]; exact h1
            have hu : (updateEmail store u.channel_url em)[i] = store[i] := by
              rw [updateEmail_getElem store u.channel_url em i h1 h1b,
                if_neg (fun hcc =>
                  hx u (List.mem_cons_self u rest) (hcc.symm.trans hi))]
            have hx2 : ∀ w ∈ rest, w.channel_url ≠ x :=
              fun w hw => hx w (List.mem_cons_of_mem _ hw)
            have hi2 : (updateEmail store u.channel_url em)[i].channel_url = x := by
              rw [hu]; exact hi
            have := ih (updateEmail store u.channel_url em) x hx2 i h1b h2 hi2
            rw [this, hu]
    · simp only [runLoop, hp, if_false, Bool.false_eq_true] at h2 ⊢
      exact ih store x (fun w hw => hx w (List.mem_cons_of_mem _ hw)) i h1 h2 hi

/-- Splitting a no-duplicate-urls batch around a middle record. -/
lemma nodup_urls_sep (pre post : List RawRecord) (rN : RawRecord)
    (hnodup : ((pre ++ rN :: post).map (fun x => x.channel_url)).Nodup) :
    (∀ w ∈ pre, ∀ q ∈ post, w.channel_url ≠ q.channel_url) ∧
    (∀ w ∈ pre, w.channel_url ≠ rN.channel_url) ∧
    (∀ q ∈ post, rN.channel_url ≠ q.channel_url) := by
  rw [List.map_append] at hnodup
  obtain ⟨hn1, hn2, hdisj⟩ := List.nodup_append.mp hnodup
  rw [List.map_cons, List.nodup_cons] at hn2
  refine ⟨?_, ?_, ?_⟩
  · intro w hw q hq hcc
    apply hdisj (List.mem_map_of_mem _ hw)
    rw [List.map_cons]
    exact List.mem_cons_of_mem _ (hcc ▸ List.mem_map_of_mem _ hq)
  · intro w hw hcc
    apply hdisj (List.mem_map_of_mem _ hw)
    rw [List.map_cons, hcc]
    exact List.mem_cons_self _ _
  · intro q hq hcc
    exact hn2.1 (hcc ▸ List.mem_map_of_mem _ hq)

/-! The claims. -/

/-- C8: login_to_google is a no-op when the session is already
authenticated: when the address reached from the accounts page contains
myaccount, it returns at once, with no typing or clicking of login
fields and no error. -/
theorem login_to_google_noop_when_authenticated (a : AuthEnv)
    (h : strContains a.currentUrl "myaccount" = true) :
    login_to_google a = ([LoginEvent.opened], none) := by
  unfold login_to_google
  rw [if_pos h]

theorem login_to_google_noop_when_authenticated_witness :
    strContains "https://myaccount.google.com/?pli=1" "myaccount" = true ∧
    login_to_google ⟨"https://myaccount.google.com/?pli=1", true, true⟩ =
      ([LoginEvent.opened], none) :=
  ⟨by decide,
   login_to_google_noop_when_authenticated
     ⟨"https://myaccount.google.com/?pli=1", true, true⟩ (by decide)⟩

/-- C9: when the session is not already authenticated and either login
input field is not interactable within the bounded wait, login fails
with the authentication error; the failure is fatal for the batch (run
processes no record and leaves the store as it was) and is not retried
(the identifier is typed at most once). -/
theorem login_failure_fatal_no_retry (env : Env) (urls store : List RawRecord)
    (hna : strContains env.auth.currentUrl "myaccount" = false)
    (hf : env.auth.idFieldOk = false ∨ env.auth.pwFieldOk = false) :
    (login_to_google env.auth).2 = some PyError.authenticationError
    ∧ run env urls store = ((login_to_google env.auth).1, [], store, none)
    ∧ (login_to_google env.auth).1.count LoginEvent.typedIdentifier ≤ 1 := by
  have hlg : (login_to_google env.auth).2 = some PyError.authenticationError ∧
      (login_to_google env.auth).1.count LoginEvent.typedIdentifier ≤ 1 := by
    unfold login_to_google
    rw [if_neg (by rw [hna]; exact Bool.false_ne_true)]
    rcases hf with h | h
    · rw [if_pos h]
      exact ⟨rfl, by decide⟩
    · by_cases h2 : env.auth.idFieldOk = false
      · rw [if_pos h2]
        exact ⟨rfl, by decide⟩
      · rw [if_neg h2, if_pos h]
        exact ⟨rfl, by decide⟩
  refine ⟨hlg.1, ?_, hlg.2⟩
  unfold run
  cases hcase : login_to_google env.auth with
  | mk levs err =>
    cases err with
    | none => rw [hcase] at hlg; cases hlg.1
    | some e => rfl

theorem login_failure_fatal_no_retry_witness :
    strContains "https://accounts.google.com/signin" "myaccount" = false ∧
    ((⟨⟨"https://accounts.google.com/signin", false, true⟩,
        ⟨fun _ => true, fun _ => true, fun _ => none⟩⟩ : Env).auth.idFieldOk = false ∨
     (⟨⟨"https://accounts.google.com/signin", false, true⟩,
        ⟨fun _ => true, fun _ => true, fun _ => none⟩⟩ : Env).auth.pwFieldOk = false) ∧
    (login_to_google (⟨⟨"https://accounts.google.com/signin", false, true⟩,
        ⟨fun _ => true, fun _ => true, fun _ => none⟩⟩ : Env).auth).2 =
      some PyError.authenticationError ∧
    run (⟨⟨"https://accounts.google.com/signin", false, true⟩,
        ⟨fun _ => true, fun _ => true, fun _ => none⟩⟩ : Env)
      [⟨some "u1", some ""⟩] [⟨some "u1", some ""⟩] =
      ([LoginEvent.opened], [], [⟨some "u1", some ""⟩], none) := by
  refine ⟨by decide, Or.inl rfl, ?_⟩
  have h := login_failure_fatal_no_retry
    (⟨⟨"https://accounts.google.com/signin", false, true⟩,
        ⟨fun _ => true, fun _ => true, fun _ => none⟩⟩ : Env)
    [⟨some "u1", some ""⟩] [⟨some "u1", some ""⟩] (by decide) (Or.inl rfl)
  exact ⟨h.1, h.2.1⟩

/-- C1: in a batch whose records carry pairwise distinct identifiers
(the stated store invariant), a record whose resolved value is non-empty
at batch start is never reprocessed: the loop neither navigates to it
nor calls save_emails_to_csv for its identifier. -/
theorem runLoop_never_reprocesses_resolved (env : PageEnv)
    (urls store : List RawRecord) (r : RawRecord)
    (hnodup : (urls.map (fun x => x.channel_url)).Nodup)
    (hmem : r ∈ urls) (hres : isFalsy r.email_id = false) :
    Ev.navigated r.channel_url ∉ (runLoop env urls store).1 ∧
    ∀ e, Ev.saved r.channel_url e ∉ (runLoop env urls store).1 := by
  have key : ∀ ev, evUrl ev = r.channel_url → (∀ u2, ev ≠ Ev.skipped u2) →
      ev ∉ (runLoop env urls store).1 := by
    intro ev hurl hnsk hev
    obtain ⟨w, hw, hwu, hcase⟩ := runLoop_events_mem env urls store ev hev
    rcases hcase with hpend | hskip
    · have hwr : w = r :=
        List.inj_on_of_nodup_map hnodup hw hmem (hwu.symm.trans hurl)
      rw [hwr, hres] at hpend
      cases hpend
    · exact hnsk w.channel_url hskip
  exact ⟨key (Ev.navigated r.channel_url) rfl (fun u2 h => Ev.noConfusion h),
    fun e => key (Ev.saved r.channel_url e) rfl (fun u2 h => Ev.noConfusion h)⟩

theorem runLoop_never_reprocesses_resolved_witness :
    (([⟨some "u1", some ""⟩, ⟨some "u2", some "done"⟩] :
        List RawRecord).map (fun x => x.channel_url)).Nodup ∧
    (⟨some "u2", some "done"⟩ : RawRecord) ∈
      ([⟨some "u1", some ""⟩, ⟨some "u2", some "done"⟩] : List RawRecord) ∧
    isFalsy (some "done") = false ∧
    Ev.navigated (some "u2") ∉
      (runLoop ⟨fun _ => true, fun _ => true, fun _ => some "v"⟩
        [⟨some "u1", some ""⟩, ⟨some "u2", some "done"⟩]
        [⟨some "u1", some ""⟩, ⟨some "u2", some "done"⟩]).1 ∧
    Ev.saved (some "u2") "v" ∉
      (runLoop ⟨fun _ => true, fun _ => true, fun _ => some "v"⟩
        [⟨some "u1", some ""⟩, ⟨some "u2", some "done"⟩]
        [⟨some "u1", some ""⟩, ⟨some "u2", some "done"⟩]).1 := by
  have h := runLoop_never_reprocesses_resolved
    ⟨fun _ => true, fun _ => true, fun _ => some "v"⟩
    [⟨some "u1", some ""⟩, ⟨some "u2", some "done"⟩]
    [⟨some "u1", some ""⟩, ⟨some "u2", some "done"⟩]
    ⟨some "u2", some "done"⟩ (by decide) (by decide) (by decide)
  exact ⟨by decide, by decide, by decide, h.1, h.2 "v"⟩

/-- C2: when the reveal-contact trigger is not available for a pending
record rN that the loop reaches (every earlier record completed), the
whole batch halts right there: the run equals the events of the earlier
records followed by the navigation to rN, with the store as the earlier
records left it, and no event of the run concerns any record after rN. -/
theorem runLoop_halts_batch_when_trigger_unavailable (env : PageEnv)
    (pre post store : List RawRecord) (rN : RawRecord)
    (hnodup : ((pre ++ rN :: post).map (fun x => x.channel_url)).Nodup)
    (hpre : (runLoop env pre store).2.2 = Halt.completed)
    (hpend : isFalsy rN.email_id = true)
    (htrig : env.trigger rN.channel_url = false) :
    runLoop env (pre ++ rN :: post) store =
      ((runLoop env pre store).1 ++ [Ev.navigated rN.channel_url],
       (runLoop env pre store).2.1, Halt.unavailableReturn)
    ∧ ∀ q ∈ post, ∀ ev ∈ (runLoop env (pre ++ rN :: post) store).1,
        evUrl ev ≠ q.channel_url := by
  obtain ⟨hsep1, hsep2, hsep3⟩ := nodup_urls_sep pre post rN hnodup
  have hmid : runLoop env (rN :: post) (runLoop env pre store).2.1 =
      ([Ev.navigated rN.channel_url], (runLoop env pre store).2.1,
       Halt.unavailableReturn) := by
    simp [runLoop, hpend, htrig]
  have heq : runLoop env (pre ++ rN :: post) store =
      ((runLoop env pre store).1 ++ [Ev.navigated rN.channel_url],
       (runLoop env pre store).2.1, Halt.unavailableReturn) := by
    rw [runLoop_append env pre (rN :: post) store, if_pos hpre, hmid]
  refine ⟨heq, ?_⟩
  intro q hq ev hev
  rw [heq] at hev
  rcases List.mem_append.mp hev with h | h
  · obtain ⟨w, hw, hwu, _⟩ := runLoop_events_mem env pre store ev h
    rw [hwu]
    exact hsep1 w hw q hq
  · rw [List.mem_singleton] at h
    rw [h]
    exact hsep3 q hq

theorem runLoop_halts_batch_when_trigger_unavailable_witness :
    (((([⟨some "u1", some ""⟩] : List RawRecord) ++ (⟨some "u2", some ""⟩ : RawRecord) ::
        [⟨some "u3", some ""⟩]).map (fun x => x.channel_url)).Nodup) ∧
    (runLoop ⟨fun u => u == some "u1", fun _ => true, fun _ => some "v"⟩
      [⟨some "u1", some ""⟩] []).2.2 = Halt.completed ∧
    isFalsy (some "") = true ∧
    (⟨fun u => u == some "u1", fun _ => true, fun _ => some "v"⟩ :
      PageEnv).trigger (some "u2") = false ∧
    runLoop ⟨fun u => u == some "u1", fun _ => true, fun _ => some "v"⟩
      ([⟨some "u1", some ""⟩] ++ (⟨some "u2", some ""⟩ : RawRecord) ::
        [⟨some "u3", some ""⟩]) [] =
      ((runLoop ⟨fun u => u == some "u1", fun _ => true, fun _ => some "v"⟩
          [⟨some "u1", some ""⟩] []).1 ++ [Ev.navigated (some "u2")],
       (runLoop ⟨fun u => u == some "u1", fun _ => true, fun _ => some "v"⟩
          [⟨some "u1", some ""⟩] []).2.1, Halt.unavailableReturn) := by
  have h := runLoop_halts_batch_when_trigger_unavailable
    ⟨fun u => u == some "u1", fun _ => true, fun _ => some "v"⟩
    [⟨some "u1", some ""⟩] [⟨some "u3", some ""⟩] [] ⟨some "u2", some ""⟩
    (by decide) (by decide) (by decide) (by decide)
  exact ⟨by decide, by decide, by decide, by decide, h.1⟩

/-- C7: when reading the contact value fails after the challenge was
solved for a pending record rN that the loop reaches, the whole batch
aborts at once: the run equals the events of the earlier records plus
the navigation and challenge solution of rN, save_emails_to_csv is
never called for rN (its store entry is exactly as it was at batch
start), and no event of the run concerns any record after rN. -/
theorem runLoop_aborts_on_extraction_failure (env : PageEnv)
    (pre post store : List RawRecord) (rN : RawRecord)
    (hnodup : ((pre ++ rN :: post).map (fun x => x.channel_url)).Nodup)
    (hpre : (runLoop env pre store).2.2 = Halt.completed)
    (hpend : isFalsy rN.email_id = true)
    (htrig : env.trigger rN.channel_url = true)
    (hsolve : env.solver rN.channel_url = true)
    (hext : env.emailText rN.channel_url = none) :
    runLoop env (pre ++ rN :: post) store =
      ((runLoop env pre store).1 ++
        [Ev.navigated rN.channel_url, Ev.captchaSolved rN.channel_url],
       (runLoop env pre store).2.1, Halt.limitQuit)
    ∧ (∀ e, Ev.saved rN.channel_url e ∉ (runLoop env (pre ++ rN :: post) store).1)
    ∧ (∀ i (h1 : i < store.length)
        (h2 : i < ((runLoop env pre store).2.1).length),
        store[i].channel_url = rN.channel_url →
        (runLoop env pre store).2.1[i] = store[i])
    ∧ ∀ q ∈ post, ∀ ev ∈ (runLoop env (pre ++ rN :: post) store).1,
        evUrl ev ≠ q.channel_url := by
  obtain ⟨hsep1, hsep2, hsep3⟩ := nodup_urls_sep pre post rN hnodup
  have hmid : runLoop env (rN :: post) (runLoop env pre store).2.1 =
      ([Ev.navigated rN.channel_url, Ev.captchaSolved rN.channel_url],
       (runLoop env pre store).2.1, Halt.limitQuit) := by
    simp [runLoop, hpend, htrig, hsolve, hext]
  have heq : runLoop env (pre ++ rN :: post) store =
      ((runLoop env pre store).1 ++
        [Ev.navigated rN.channel_url, Ev.captchaSolved rN.channel_url],
       (runLoop env pre store).2.1, Halt.limitQuit) := by
    rw [runLoop_append env pre (rN :: post) store, if_pos hpre, hmid]
  refine ⟨heq, ?_, ?_, ?_⟩
  · intro e hev
    rw [heq] at hev
    rcases List.mem_append.mp hev with h | h
    · obtain ⟨w, hw, hwu, _⟩ :=
        runLoop_events_mem env pre store (Ev.saved rN.channel_url e) h
      exact hsep2 w hw hwu.symm
    · rcases List.mem_cons.mp h with h2 | h2
      · cases h2
      · rcases List.mem_cons.mp h2 with h3 | h3
        · cases h3
        · cases h3
  · intro i h1 h2 hi
    exact runLoop_store_frame env pre store rN.channel_url
      (fun w hw => hsep2 w hw) i h1 h2 hi
  · intro q hq ev hev
    rw [heq] at hev
    rcases List.mem_append.mp hev with h | h
    · obtain ⟨w, hw, hwu, _⟩ := runLoop_events_mem env pre store ev h
      rw [hwu]
      exact hsep1 w hw q hq
    · rcases List.mem_cons.mp h with h2 | h2
      · rw [h2]
        exact hsep3 q hq
      · rw [List.mem_singleton] at h2
        rw [h2]
        exact hsep3 q hq

theorem runLoop_aborts_on_extraction_failure_witness :
    (((([⟨some "u1", some ""⟩] : List RawRecord) ++ (⟨some "u2", some ""⟩ : RawRecord) ::
        [⟨some "u3", some ""⟩]).map (fun x => x.channel_url)).Nodup) ∧
    (runLoop ⟨fun _ => true, fun _ => true, fun u => if u == some "u1"
        then some "v" else none⟩
      [⟨some "u1", some ""⟩] [⟨some "u2", some "keep"⟩]).2.2 = Halt.completed ∧
    isFalsy (some "") = true ∧
    runLoop ⟨fun _ => true, fun _ => true, fun u => if u == some "u1"
        then some "v" else none⟩
      ([⟨some "u1", some ""⟩] ++ (⟨some "u2", some ""⟩ : RawRecord) ::
        [⟨some "u3", some ""⟩]) [⟨some "u2", some "keep"⟩] =
      ((runLoop ⟨fun _ => true, fun _ => true, fun u => if u == some "u1"
          then some "v" else none⟩
          [⟨some "u1", some ""⟩] [⟨some "u2", some "keep"⟩]).1 ++
        [Ev.navigated (some "u2"), Ev.captchaSolved (some "u2")],
       (runLoop ⟨fun _ => true, fun _ => true, fun u => if u == some "u1"
          then some "v" else none⟩
          [⟨some "u1", some ""⟩] [⟨some "u2", some "keep"⟩]).2.1,
       Halt.limitQuit) ∧
    Ev.saved (some "u2") "v" ∉
      (runLoop ⟨fun _ => true, fun _ => true, fun u => if u == some "u1"
          then some "v" else none⟩
        ([⟨some "u1", some ""⟩] ++ (⟨some "u2", some ""⟩ : RawRecord) ::
          [⟨some "u3", some ""⟩]) [⟨some "u2", some "keep"⟩]).1 := by
  have h := runLoop_aborts_on_extraction_failure
    ⟨fun _ => true, fun _ => true, fun u => if u == some "u1"
        then some "v" else none⟩
    [⟨some "u1", some ""⟩] [⟨some "u3", some ""⟩] [⟨some "u2", some "keep"⟩]
    ⟨some "u2", some ""⟩
    (by decide) (by decide) (by decide) (by decide) (by decide) (by decide)
  exact ⟨by decide, by decide, by decide, h.1, h.2.1 "v"⟩

/-- C3: on a well-formed store, save_emails_to_csv succeeds and
rewrites the file with the column order channel_url, email_id, one
output row per input row in the original order, every row whose
identifier differs from the given one byte-identical; loading before
and after shows the same record sequence with exactly the matching
identifier mapped to the new value. -/
theorem save_emails_preserves_store (f : CsvFile) (u e : String)
    (hW : wellFormedStore f) :
    save_emails_to_csv f (some u) e = Except.ok (CsvFile.mk
        ["channel_url", "email_id"]
        (f.rows.map (fun r =>
          if some (r.getD 0 "") = some u then [r.getD 0 "", e] else r)))
    ∧ (f.rows.map (fun r =>
          if some (r.getD 0 "") = some u then [r.getD 0 "", e] else r)).length
        = f.rows.length
    ∧ (∀ i (h1 : i < f.rows.length)
        (h2 : i < (f.rows.map (fun r =>
          if some (r.getD 0 "") = some u then [r.getD 0 "", e] else r)).length),
        f.rows[i].getD 0 "" ≠ u →
        (f.rows.map (fun r =>
          if some (r.getD 0 "") = some u then [r.getD 0 "", e] else r))[i]
          = f.rows[i])
    ∧ load_urls_from_csv f = Except.ok (f.rows.map (fun r =>
        (⟨some (r.getD 0 ""), some (r.getD 1 "")⟩ : RawRecord)))
    ∧ load_urls_from_csv (CsvFile.mk ["channel_url", "email_id"]
        (f.rows.map (fun r =>
          if some (r.getD 0 "") = some u then [r.getD 0 "", e] else r)))
      = Except.ok ((f.rows.map (fun r =>
          (⟨some (r.getD 0 ""), some (r.getD 1 "")⟩ : RawRecord))).map
          (fun x => if x.channel_url = some u then ⟨x.channel_url, some e⟩ else x)) := by
  refine ⟨save_ok_of_wellFormed f (some u) e hW, by simp, ?_,
    load_ok_of_wellFormed f hW, ?_⟩
  · intro i h1 h2 hne
    simp only [List.getElem_map]
    exact if_neg (fun hc => hne (Option.some.inj hc))
  · have hW2 : wellFormedStore (CsvFile.mk ["channel_url", "email_id"]
        (f.rows.map (fun r =>
          if some (r.getD 0 "") = some u then [r.getD 0 "", e] else r))) := by
      refine ⟨rfl, ?_⟩
      intro r2 hr2
      obtain ⟨r, hrm, rfl⟩ := List.mem_map.mp hr2
      by_cases h : some (r.getD 0 "") = some u
      · rw [if_pos h]
        rfl
      · rw [if_neg h]
        exact hW.2 r hrm
    rw [load_ok_of_wellFormed _ hW2]
    congr 1
    rw [List.map_map, List.map_map]
    apply List.map_congr_left
    intro r hrm
    obtain ⟨a, b, rfl⟩ := List.length_eq_two.mp (hW.2 r hrm)
    by_cases h : a = u
    · subst h
      simp [Function.comp]
    · have hc1 : ¬ (some (([a, b] : List String).getD 0 "") = some u) :=
        fun hc => h (Option.some.inj hc)
      simp only [Function.comp, if_neg hc1]

theorem save_emails_preserves_store_witness :
    wellFormedStore ⟨["channel_url", "email_id"], [["u1", "x"], ["u2", "y"]]⟩ ∧
    save_emails_to_csv ⟨["channel_url", "email_id"], [["u1", "x"], ["u2", "y"]]⟩
        (some "u1") "nv"
      = Except.ok ⟨["channel_url", "email_id"], [["u1", "nv"], ["u2", "y"]]⟩ ∧
    load_urls_from_csv ⟨["channel_url", "email_id"], [["u1", "nv"], ["u2", "y"]]⟩
      = Except.ok [⟨some "u1", some "nv"⟩, ⟨some "u2", some "y"⟩] := by
  have h := save_emails_preserves_store
    ⟨["channel_url", "email_id"], [["u1", "x"], ["u2", "y"]]⟩ "u1" "nv" (by decide)
  exact ⟨by decide, h.1.trans (by rfl), h.2.2.2.2.trans (by rfl)⟩

/-- C5: save_emails_to_csv with an identifier matching no record of a
well-formed store does not raise and leaves the record rows exactly as
they were (the rewrite is content-identical). -/
theorem save_noop_on_unknown_identifier (f : CsvFile) (u e : String)
    (hW : wellFormedStore f) (hno : ∀ r ∈ f.rows, r.getD 0 "" ≠ u) :
    save_emails_to_csv f (some u) e =
      Except.ok ⟨["channel_url", "email_id"], f.rows⟩ := by
  rw [save_ok_of_wellFormed f (some u) e hW]
  have hmap : f.rows.map (fun r =>
      if some (r.getD 0 "") = some u then [r.getD 0 "", e] else r) = f.rows := by
    have h1 : f.rows.map (fun r =>
        if some (r.getD 0 "") = some u then [r.getD 0 "", e] else r)
        = f.rows.map id :=
      List.map_congr_left (fun r hr => by
        rw [if_neg (fun hc => hno r hr (Option.some.inj hc))]
        rfl)
    rw [h1, List.map_id]
  rw [hmap]

theorem save_noop_on_unknown_identifier_witness :
    wellFormedStore ⟨["channel_url", "email_id"], [["u1", "x"], ["u2", ""]]⟩ ∧
    (∀ r ∈ ([["u1", "x"], ["u2", ""]] : List (List String)), r.getD 0 "" ≠ "zz") ∧
    save_emails_to_csv ⟨["channel_url", "email_id"], [["u1", "x"], ["u2", ""]]⟩
        (some "zz") "e"
      = Except.ok ⟨["channel_url", "email_id"], [["u1", "x"], ["u2", ""]]⟩ :=
  ⟨by decide, by decide,
   save_noop_on_unknown_identifier
     ⟨["channel_url", "email_id"], [["u1", "x"], ["u2", ""]]⟩ "zz" "e"
     (by decide) (by decide)⟩

/-- C10: when several rows of a well-formed store carry the given
identifier, save_emails_to_csv writes the new value into every one of
them, not only the first. -/
theorem save_updates_every_matching_record (f : CsvFile) (u e : String)
    (hW : wellFormedStore f)
    (_hdup : 2 ≤ f.rows.countP (fun r => r.getD 0 "" == u)) :
    save_emails_to_csv f (some u) e = Except.ok (CsvFile.mk
        ["channel_url", "email_id"]
        (f.rows.map (fun r =>
          if some (r.getD 0 "") = some u then [r.getD 0 "", e] else r)))
    ∧ ∀ i (h1 : i < f.rows.length)
        (h2 : i < (f.rows.map (fun r =>
          if some (r.getD 0 "") = some u then [r.getD 0 "", e] else r)).length),
        f.rows[i].getD 0 "" = u →
        (f.rows.map (fun r =>
          if some (r.getD 0 "") = some u then [r.getD 0 "", e] else r))[i]
          = [u, e] := by
  refine ⟨save_ok_of_wellFormed f (some u) e hW, ?_⟩
  intro i h1 h2 hm
  simp only [List.getElem_map]
  rw [if_pos (by rw [hm]), hm]

theorem save_updates_every_matching_record_witness :
    wellFormedStore ⟨["channel_url", "email_id"], [["u1", "a"], ["u1", "b"]]⟩ ∧
    2 ≤ ([["u1", "a"], ["u1", "b"]] : List (List String)).countP
        (fun r => r.getD 0 "" == "u1") ∧
    save_emails_to_csv ⟨["channel_url", "email_id"], [["u1", "a"], ["u1", "b"]]⟩
        (some "u1") "nv"
      = Except.ok ⟨["channel_url", "email_id"], [["u1", "nv"], ["u1", "nv"]]⟩ := by
  have h := save_updates_every_matching_record
    ⟨["channel_url", "email_id"], [["u1", "a"], ["u1", "b"]]⟩ "u1" "nv"
    (by decide) (by decide)
  exact ⟨by decide, by decide, h.1.trans (by rfl)⟩

/-- C6 counterexample: a file whose header lacks the required
channel_url column but which has no data rows loads successfully (the
per-row lookup that would raise is never executed), so load does not
fail whenever a required column is missing. -/
theorem load_missing_column_no_rows_loads :
    ("channel_url" ∉ (CsvFile.mk ["email_id"] []).header) ∧
    load_urls_from_csv ⟨["email_id"], []⟩ = Except.ok [] :=
  ⟨by decide, rfl⟩

/-- C6 amended: load_urls_from_csv fails with the key error when a
required column is missing from the header and at least one data row
exists (with no data rows it returns the empty record list regardless
of the header); when both required columns are present it returns the
records as an ordered sequence in file order. -/
theorem load_urls_column_check (f : CsvFile) :
    (("channel_url" ∉ f.header ∨ "email_id" ∉ f.header) → f.rows ≠ [] →
      load_urls_from_csv f = Except.error PyError.keyError)
    ∧ ("channel_url" ∈ f.header → "email_id" ∈ f.header →
      load_urls_from_csv f = Except.ok (f.rows.map (rowToRecord f.header))) :=
  ⟨fun h1 h2 => load_error_of_missing_column f h1 h2,
   fun h1 h2 => load_ok_of_columns f h1 h2⟩

theorem load_urls_column_check_witness :
    (("channel_url" ∉ (["email_id"] : List String) ∨
      "email_id" ∉ (["email_id"] : List String)) ∧
     ([["a"]] : List (List String)) ≠ [] ∧
     load_urls_from_csv ⟨["email_id"], [["a"]]⟩ = Except.error PyError.keyError) ∧
    ("channel_url" ∈ (["channel_url", "email_id"] : List String) ∧
     "email_id" ∈ (["channel_url", "email_id"] : List String) ∧
     load_urls_from_csv ⟨["channel_url", "email_id"], [["u", "e"]]⟩ =
       Except.ok [⟨some "u", some "e"⟩]) := by
  constructor
  · exact ⟨by decide, by decide,
      (load_urls_column_check ⟨["email_id"], [["a"]]⟩).1 (by decide) (by decide)⟩
  · exact ⟨by decide, by decide,
      ((load_urls_column_check ⟨["channel_url", "email_id"], [["u", "e"]]⟩).2
        (by decide) (by decide)).trans (by rfl)⟩

/-- C4 counterexample: the spec test string (which, written out, is the
17 characters left bracket, email, space, protected, right bracket,
twice, joined by the words and again) contains no match of the email
pattern at all, so the generic extraction yields the empty set on it
and not the claimed one-element set. -/
theorem extract_email_content_claim_input_empty :
    extract_email_content "[email protected] and again [email protected]" = (∅ : Finset String) ∧
    extract_email_content "[email protected] and again [email protected]" ≠
      ({"[email protected]"} : Finset String) := by
  exact ⟨by decide, by decide⟩

/-- C4 amended: the generic page-extraction mode returns the set of
distinct regex matches of the page text, deduplicating by exact string
match and order-insensitively (a finite set: membership is exactly
membership in the findall list); on a page containing the same address
a-at-b.com twice, findall produces two matches and the extraction
yields exactly the one-element set with that address; on the literal
spec test string, which contains no email-pattern match, it yields the
empty set. -/
theorem extract_email_content_dedup :
    (∀ s x, x ∈ extract_email_content s ↔ x ∈ findallEmails s)
    ∧ findallEmails "a\x40b.com and again a\x40b.com" = ["a\x40b.com", "a\x40b.com"]
    ∧ extract_email_content "a\x40b.com and again a\x40b.com" =
        ({"a\x40b.com"} : Finset String)
    ∧ extract_email_content "[email protected] and again [email protected]" = (∅ : Finset String) :=
  ⟨fun _ _ => List.mem_toFinset, by decide, by decide, by decide⟩

end Scraper
